import Mathlib

/-!
Shallow embedding of the remote-procedure-call repository
(src/mylib.c — the client interposition shim, and src/server.c — the server),
together with theorems settling the frozen claims about it.

Modelling conventions:
* C `int` / `ssize_t` / `off_t` values are modelled as `Int`;
  C `size_t` values are modelled as `Nat` (with the 64-bit wraparound of
  `size_t` subtraction made explicit where the source relies on it).
* A two-field wire reply (`fd|errno`, `bytes|errno`, `success|errno`, ...)
  is a `Resp`; the first field is `val`, the second `err`.
* Network interaction of the shim is modelled by passing in the stream of
  replies the socket would deliver (a `List Resp`) and returning, next to
  the result and the final errno, the list of request chunk sizes the shim
  sent; an empty list means no request was put on the wire.  A loop that
  would block forever waiting for a reply that never comes yields `none`.
-/

/-- MAX_MSG_LEN from mylib.c / server.c. -/
def MAX_MSG_LEN : Nat := 4096

/-- FD_OFFSET from mylib.c: the boundary between local and remote descriptors. -/
def FD_OFFSET : Int := 5000

/-- A fixed-size two-integer reply frame as received from the server:
`val` is the primary value (fd, bytes, success, new offset),
`err` the transmitted errno. -/
structure Resp where
  val : Int
  err : Int
deriving DecidableEq, Repr

/-- 64-bit `size_t` subtraction `c - b` as performed by `count -= bytes_read`
in mylib.c: the signed quantity `b` is converted to `size_t` and the
difference wraps modulo 2^64. -/
def subSize (c : Nat) (b : Int) : Nat :=
  (((c : Int) - b) % (2 ^ 64 : Int)).toNat

namespace Mylib

/-- The reply-processing tail of `open` in mylib.c (lines 136-144): the wire
carries `fd` and `errno`; the shim stores `errno` and biases every fd other
than `-1` by FD_OFFSET before returning. Result: (return value, errno). -/
def openCall (r : Resp) : Int × Int :=
  (if r.val ≠ -1 then r.val + FD_OFFSET else r.val, r.err)

/-- The reply-processing tail of `readHelper` in mylib.c (lines 186-192):
`return errno == 0 ? bytes_read : -1;` with `errno` set from the wire.
Result: (return value, errno). -/
def readHelper (r : Resp) : Int × Int :=
  (if r.err = 0 then r.val else -1, r.err)

/-- The reply-processing tail of `writeHelper` in mylib.c (lines 266-272),
identical in shape to `readHelper`. -/
def writeHelper (r : Resp) : Int × Int :=
  (if r.err = 0 then r.val else -1, r.err)

/-- Exit status of a read/write chunking loop: `abort e` models the early
`return -1` with errno `e`; `done t e` models falling out of the loop with
accumulated total `t` and errno `e`. -/
inductive LoopEnd where
  | abort (e : Int)
  | done (t : Int) (e : Int)
deriving DecidableEq, Repr

/-- The chunking loop of `read` in mylib.c (lines 209-224).  Arguments:
the reply stream, the remaining `count` (a `size_t`), the accumulated
`total_bytes_read`, and the current errno.  Returns the loop exit together
with the list of per-frame request sizes sent, or `none` if the loop asks
for a reply the stream does not contain. -/
def readGo : List Resp → Nat → Int → Int → Option (LoopEnd × List Nat)
  | _, 0, total, e => some (.done total e, [])
  | [], _ + 1, _, _ => none
  | r :: rest, n + 1, total, _ =>
    let req := min (n + 1) (MAX_MSG_LEN - 8)
    let br := (readHelper r).1
    if br = -1 then some (.abort r.err, [req])
    else if br = 0 then some (.done total r.err, [req])
    else
      match readGo rest (subSize (n + 1) br) (total + br) r.err with
      | none => none
      | some (x, reqs) => some (x, req :: reqs)

/-- The chunking loop of `write` in mylib.c (lines 293-304): as `readGo`
but without the zero-bytes (EOF) break. -/
def writeGo : List Resp → Nat → Int → Int → Option (LoopEnd × List Nat)
  | _, 0, total, e => some (.done total e, [])
  | [], _ + 1, _, _ => none
  | r :: rest, n + 1, total, _ =>
    let req := min (n + 1) (MAX_MSG_LEN - 12)
    let bw := (writeHelper r).1
    if bw = -1 then some (.abort r.err, [req])
    else
      match writeGo rest (subSize (n + 1) bw) (total + bw) r.err with
      | none => none
      | some (x, reqs) => some (x, req :: reqs)

/-- `read` from mylib.c (lines 202-228).  `localRet` is the value the local
(non-interposed) `read` would return, `rs` the reply stream, `e` the errno
value on entry.  Result: (return value, errno, request sizes sent). -/
def read (fd : Int) (localRet : Int) (count : Nat) (rs : List Resp) (e : Int) :
    Option (Int × Int × List Nat) :=
  if fd < FD_OFFSET then some (localRet, e, [])
  else
    match readGo rs count 0 e with
    | none => none
    | some (.abort er, reqs) => some (-1, er, reqs)
    | some (.done t er, reqs) => some (t, er, reqs)

/-- `write` from mylib.c (lines 282-307); on normal loop exit the source
returns `total_bytes_written == 0 ? -1 : total_bytes_written`. -/
def write (fd : Int) (localRet : Int) (count : Nat) (rs : List Resp) (e : Int) :
    Option (Int × Int × List Nat) :=
  if fd < FD_OFFSET then some (localRet, e, [])
  else
    match writeGo rs count 0 e with
    | none => none
    | some (.abort er, reqs) => some (-1, er, reqs)
    | some (.done t er, reqs) => some (if t = 0 then -1 else t, er, reqs)

/-- `close` from mylib.c (lines 314-352): local descriptors delegate, remote
ones send one request and return the reply's `success` field verbatim.
Result: (return value, errno, number of requests sent). -/
def close (fd : Int) (localRet : Int) (r : Resp) (e : Int) : Int × Int × Nat :=
  if fd < FD_OFFSET then (localRet, e, 0) else (r.val, r.err, 1)

/-- `lseek` from mylib.c (lines 361-399): the remote path returns the
reply's `new_offset` verbatim, regardless of the transmitted errno. -/
def lseek (fd : Int) (localRet : Int) (r : Resp) (e : Int) : Int × Int × Nat :=
  if fd < FD_OFFSET then (localRet, e, 0) else (r.val, r.err, 1)

/-- The reply-processing tail of `stat` in mylib.c (lines 433-440):
unconditionally remote, returns the reply's `success` verbatim. -/
def stat (r : Resp) : Int × Int :=
  (r.val, r.err)

/-- The reply-processing tail of `unlink` in mylib.c (lines 473-480):
unconditionally remote, returns the reply's `success` verbatim. -/
def unlink (r : Resp) : Int × Int :=
  (r.val, r.err)

/-- `getdirentries` from mylib.c (lines 491-539): local descriptors
delegate; on the remote path the header reply carries `bytes_read` and
`errno`, and the shim returns `bytes_read` verbatim whether or not the
errno is zero (reading a data frame of `bytes_read` bytes only when it is
zero). -/
def getdirentries (fd : Int) (localRet : Int) (r : Resp) (e : Int) :
    Int × Int × Nat :=
  if fd < FD_OFFSET then (localRet, e, 0) else (r.val, r.err, 1)

end Mylib

namespace Server

/-- The two frames the server emits for a getdirentries request (opcode 7):
`hdrBytes` and `hdrErr` are the two i32 fields of the 8-byte header frame,
`dataLen` is the byte length of the frame the main dispatch loop sends
afterwards. -/
structure GdeReply where
  hdrBytes : Int
  hdrErr : Int
  dataLen : Nat
deriving DecidableEq, Repr

/-- The `handle_getdirentries` handler of server.c (lines 349-393) together
with the send in the main dispatch loop (lines 546-559).  `ret` is the return
value of the underlying getdirentries call and `e` the errno after it.  The
source stores the result in `size_t bytes_read` (so `-1` becomes `2^64 - 1`),
sends an 8-byte header frame holding the low 32 bits of `bytes_read` (read
back as an i32) and the errno, and returns `bytes_read` as the reply length;
the main loop then unconditionally sends a second frame of that many bytes. -/
def handle_getdirentries (ret : Int) (e : Int) : GdeReply :=
  let bytesRead : Nat := (ret % (2 ^ 64 : Int)).toNat
  let lo : Nat := bytesRead % 2 ^ 32
  ⟨if lo < 2 ^ 31 then (lo : Int) else (lo : Int) - 2 ^ 32, e, bytesRead⟩

end Server

/-- The directory tree of dirtree.h: a node name and an ordered list of
children.  The source stores the child count in a separate `num_subdirs`
field; the claims under consideration assume it equals the length of the
child array, so the model represents both by the list. -/
inductive dirtreenode where
  | mk (name : List Nat) (subdirs : List dirtreenode)

/-- The little-endian 4-byte encoding of a non-negative `int`, as produced by
`memcpy(buf + *offset, &node->num_subdirs, sizeof(uint32_t))` on a
little-endian host. -/
def encU32 (n : Nat) : List Nat :=
  [n % 256, n / 256 % 256, n / 2 ^ 16 % 256, n / 2 ^ 24 % 256]

mutual

/-- `serialize_dirtree` from server.c (lines 401-414): pre-order traversal
writing the node name, a NUL delimiter, the 4-byte little-endian child
count, then the serialized children in order. -/
def serialize_dirtree : dirtreenode → List Nat
  | .mk nm subs => nm ++ 0 :: (encU32 subs.length ++ serialize_list subs)

/-- Serialization of a list of children in order (the `for` loop of
`serialize_dirtree`). -/
def serialize_list : List dirtreenode → List Nat
  | [] => []
  | t :: ts => serialize_dirtree t ++ serialize_list ts

end

mutual

/-- Number of nodes of a tree; used as the recursion fuel of the
deserializer model. -/
def treeSize : dirtreenode → Nat
  | .mk _ subs => 1 + listSize subs

/-- Total number of nodes of a list of trees. -/
def listSize : List dirtreenode → Nat
  | [] => 0
  | t :: ts => treeSize t + listSize ts

end

/-- Reading 4 little-endian bytes back into a signed 32-bit `int`, as the
`memcpy(&node->num_subdirs, buf + *offset, sizeof(uint32_t))` of mylib.c
does on a little-endian host. -/
def decI32 (b0 b1 b2 b3 : Nat) : Int :=
  if (b0 + 256 * b1 + 2 ^ 16 * b2 + 2 ^ 24 * b3) % 2 ^ 32 < 2 ^ 31
  then ((b0 + 256 * b1 + 2 ^ 16 * b2 + 2 ^ 24 * b3) % 2 ^ 32 : Nat)
  else ((b0 + 256 * b1 + 2 ^ 16 * b2 + 2 ^ 24 * b3) % 2 ^ 32 : Nat) - 2 ^ 32

/-- The child-parsing `for` loop of `deserialize_dirtree` in mylib.c:
parse `n` consecutive children with the given node parser, threading the
remaining buffer. -/
def parseKids (parse : List Nat → Option (dirtreenode × List Nat)) :
    Nat → List Nat → Option (List dirtreenode × List Nat)
  | 0, buf => some ([], buf)
  | n + 1, buf =>
    match parse buf with
    | none => none
    | some (t, rem) =>
      match parseKids parse n rem with
      | none => none
      | some (ts, rem2) => some (t :: ts, rem2)

/-- `deserialize_dirtree` from mylib.c (lines 546-562): scan to the NUL for
the name (`strlen`), skip it, read the 4-byte child count (a signed `int`:
a negative value makes the `for` loop parse no children, modelled by
`Int.toNat`), then parse that many children.  The `fuel` argument bounds the
recursion depth of the model; the run out of either fuel or buffer is
`none`. -/
def deserialize_dirtree : Nat → List Nat → Option (dirtreenode × List Nat)
  | 0, _ => none
  | fuel + 1, buf =>
    let nm := buf.takeWhile (fun b => b != 0)
    match buf.drop (nm.length + 1) with
    | b0 :: b1 :: b2 :: b3 :: rest2 =>
      match parseKids (deserialize_dirtree fuel) (decI32 b0 b1 b2 b3).toNat rest2 with
      | none => none
      | some (ts, rem) => some (.mk nm ts, rem)
    | _ => none

mutual

/-- Well-formedness of a tree as required by claim C3: names are non-empty,
NUL-free byte strings, and every child count fits a non-negative 32-bit
`int`. -/
def wfTree : dirtreenode → Bool
  | .mk nm subs =>
    decide (nm ≠ []) && nm.all (fun b => b != 0 && b < 256) &&
      decide (subs.length < 2 ^ 31) && wfList subs

/-- Well-formedness of every tree in a list. -/
def wfList : List dirtreenode → Bool
  | [] => true
  | t :: ts => wfTree t && wfList ts

end

/-- A reply stream conforms to a write of `count` bytes when every reply
that the loop consumes with a zero errno reports between 1 byte and the
requested chunk `min count (MAX_MSG_LEN - 12)`, the remaining count being
threaded exactly as the loop does. -/
def conforms : Nat → List Resp → Bool
  | _, [] => true
  | count, r :: rest =>
    (r.err != 0 ||
      (decide (1 ≤ r.val) && decide (r.val ≤ ((min count (MAX_MSG_LEN - 12) : Nat) : Int)))) &&
      conforms (if r.err = 0 then count - r.val.toNat else count) rest

lemma treeSize_pos (t : dirtreenode) : 1 ≤ treeSize t := by
  cases t with
  | mk nm subs => simp [treeSize]

lemma takeWhile_name (nm : List Nat) (h : ∀ b ∈ nm, b ≠ 0) (rest : List Nat) :
    (nm ++ 0 :: rest).takeWhile (fun b => b != 0) = nm := by
  induction nm with
  | nil => simp [List.takeWhile]
  | cons a as ih =>
    have ha : (a != 0) = true := by
      simpa [bne_iff_ne] using h a (by simp)
    simp [List.takeWhile, ha, ih (fun b hb => h b (by simp [hb]))]

lemma drop_name (nm : List Nat) (rest : List Nat) :
    (nm ++ 0 :: rest).drop (nm.length + 1) = rest := by
  induction nm with
  | nil => simp
  | cons a as ih => simp [ih]

lemma decode_encode (c : Nat) (h : c < 2 ^ 31) :
    decI32 (c % 256) (c / 256 % 256) (c / 2 ^ 16 % 256) (c / 2 ^ 24 % 256) = (c : Int) := by
  unfold decI32
  have hv : (c % 256 + 256 * (c / 256 % 256) + 2 ^ 16 * (c / 2 ^ 16 % 256) +
      2 ^ 24 * (c / 2 ^ 24 % 256)) % 2 ^ 32 = c := by omega
  rw [hv, if_pos h]

lemma parseKids_ser (g : Nat)
    (hrec : ∀ t extra, wfTree t = true → treeSize t ≤ g →
      deserialize_dirtree g (serialize_dirtree t ++ extra) = some (t, extra)) :
    ∀ subs extra, wfList subs = true → listSize subs ≤ g →
      parseKids (deserialize_dirtree g) subs.length (serialize_list subs ++ extra) =
        some (subs, extra) := by
  intro subs
  induction subs with
  | nil => intro extra _ _; simp [serialize_list, parseKids]
  | cons t ts ih =>
    intro extra hwf hsz
    simp only [wfList, Bool.and_eq_true] at hwf
    simp only [listSize] at hsz
    have hts : treeSize t ≤ g := le_trans (Nat.le_add_right _ _) hsz
    have h1 : deserialize_dirtree g (serialize_dirtree t ++ (serialize_list ts ++ extra)) =
        some (t, serialize_list ts ++ extra) := hrec t _ hwf.1 hts
    have h2 := ih extra hwf.2 (by omega)
    simp only [List.length_cons, serialize_list, parseKids, List.append_assoc, h1, h2]

lemma deser_ser (f : Nat) :
    ∀ t extra, wfTree t = true → treeSize t ≤ f →
      deserialize_dirtree f (serialize_dirtree t ++ extra) = some (t, extra) := by
  induction f using Nat.strong_induction_on with
  | _ f ih =>
    intro t extra hwf hsz
    cases t with
    | mk nm subs =>
      cases f with
      | zero =>
        exact absurd (le_trans (treeSize_pos _) hsz) (by omega)
      | succ g =>
        simp only [wfTree, Bool.and_eq_true, List.all_eq_true, decide_eq_true_eq,
          Bool.and_eq_true, bne_iff_ne, ne_eq] at hwf
        obtain ⟨⟨⟨hne, hbytes⟩, hlen⟩, hkids⟩ := hwf
        have hsz2 : listSize subs ≤ g := by
          simp only [treeSize] at hsz; omega
        have hbuf : serialize_dirtree (dirtreenode.mk nm subs) ++ extra =
            nm ++ 0 :: (encU32 subs.length ++ (serialize_list subs ++ extra)) := by
          simp [serialize_dirtree, List.append_assoc]
        rw [hbuf]
        show deserialize_dirtree (g + 1) _ = _
        simp only [deserialize_dirtree]
        rw [takeWhile_name nm (fun b hb => (hbytes b hb).1), drop_name]
        simp only [encU32, List.cons_append, List.nil_append]
        rw [decode_encode subs.length hlen]
        simp only [Int.toNat_natCast]
        rw [parseKids_ser g (fun t' e' hw hs => ih g (by omega) t' e' hw hs) subs extra
          hkids hsz2]

lemma subSize_no_wrap (c : Nat) (b : Int) (hb : 0 ≤ b) (hbc : b.toNat ≤ c)
    (hc : c < 2 ^ 64) : subSize c b = c - b.toNat := by
  unfold subSize
  omega

lemma readGo_abort (e : Resp) (he : e.err ≠ 0) (rest : List Resp) :
    ∀ (ns : List Resp) (count : Nat) (total err0 : Int),
      (∀ r ∈ ns, r.err = 0 ∧ 1 ≤ r.val) →
      (ns.map fun r => r.val.toNat).sum < count →
      count < 2 ^ 64 →
      ∃ reqs, Mylib.readGo (ns ++ e :: rest) count total err0 =
          some (.abort e.err, reqs) ∧ reqs.length = ns.length + 1 := by
  intro ns
  induction ns with
  | nil =>
    intro count total err0 _ hsum hlt
    obtain ⟨n, rfl⟩ : ∃ n, count = n + 1 := ⟨count - 1, by omega⟩
    refine ⟨[min (n + 1) (MAX_MSG_LEN - 8)], ?_, rfl⟩
    simp [Mylib.readGo, Mylib.readHelper, he]
  | cons r ns ih =>
    intro count total err0 hns hsum hlt
    have hr := hns r (by simp)
    simp only [List.map_cons, List.sum_cons] at hsum
    obtain ⟨n, rfl⟩ : ∃ n, count = n + 1 := ⟨count - 1, by omega⟩
    have hbr1 : ¬(r.val = -1) := by omega
    have hbr0 : ¬(r.val = 0) := by omega
    have hsub : subSize (n + 1) r.val = n + 1 - r.val.toNat :=
      subSize_no_wrap _ _ (by omega) (by omega) hlt
    obtain ⟨reqs, hgo, hlen⟩ := ih (n + 1 - r.val.toNat) (total + r.val) r.err
      (fun x hx => hns x (by simp [hx])) (by omega) (by omega)
    rw [hr.1] at hgo
    refine ⟨min (n + 1) (MAX_MSG_LEN - 8) :: reqs, ?_, by simp [hlen]⟩
    simp [Mylib.readGo, Mylib.readHelper, hr.1, hbr1, hbr0, hsub, hgo]

lemma writeGo_abort (e : Resp) (he : e.err ≠ 0) (rest : List Resp) :
    ∀ (ns : List Resp) (count : Nat) (total err0 : Int),
      (∀ r ∈ ns, r.err = 0 ∧ 1 ≤ r.val) →
      (ns.map fun r => r.val.toNat).sum < count →
      count < 2 ^ 64 →
      ∃ reqs, Mylib.writeGo (ns ++ e :: rest) count total err0 =
          some (.abort e.err, reqs) ∧ reqs.length = ns.length + 1 := by
  intro ns
  induction ns with
  | nil =>
    intro count total err0 _ hsum hlt
    obtain ⟨n, rfl⟩ : ∃ n, count = n + 1 := ⟨count - 1, by omega⟩
    refine ⟨[min (n + 1) (MAX_MSG_LEN - 12)], ?_, rfl⟩
    simp [Mylib.writeGo, Mylib.writeHelper, he]
  | cons r ns ih =>
    intro count total err0 hns hsum hlt
    have hr := hns r (by simp)
    simp only [List.map_cons, List.sum_cons] at hsum
    obtain ⟨n, rfl⟩ : ∃ n, count = n + 1 := ⟨count - 1, by omega⟩
    have hbr1 : ¬(r.val = -1) := by omega
    have hsub : subSize (n + 1) r.val = n + 1 - r.val.toNat :=
      subSize_no_wrap _ _ (by omega) (by omega) hlt
    obtain ⟨reqs, hgo, hlen⟩ := ih (n + 1 - r.val.toNat) (total + r.val) r.err
      (fun x hx => hns x (by simp [hx])) (by omega) (by omega)
    rw [hr.1] at hgo
    refine ⟨min (n + 1) (MAX_MSG_LEN - 12) :: reqs, ?_, by simp [hlen]⟩
    simp [Mylib.writeGo, Mylib.writeHelper, hr.1, hbr1, hsub, hgo]

lemma writeGo_done_sum :
    ∀ (rs : List Resp) (count : Nat) (total err0 t er : Int) (reqs : List Nat),
      Mylib.writeGo rs count total err0 = some (.done t er, reqs) →
      t = total + ((rs.take reqs.length).map fun r => r.val).sum := by
  intro rs
  induction rs with
  | nil =>
    intro count total err0 t er reqs h
    cases count with
    | zero =>
      simp only [Mylib.writeGo, Option.some.injEq, Prod.mk.injEq] at h
      obtain ⟨h1, h2⟩ := h
      cases h1
      simp [h2.symm]
    | succ n => simp [Mylib.writeGo] at h
  | cons r rest ih =>
    intro count total err0 t er reqs h
    cases count with
    | zero =>
      simp only [Mylib.writeGo, Option.some.injEq, Prod.mk.injEq] at h
      obtain ⟨h1, h2⟩ := h
      cases h1
      simp [h2.symm]
    | succ n =>
      simp only [Mylib.writeGo, Mylib.writeHelper] at h
      by_cases hre : r.err = 0
      · rw [if_pos hre] at h
        by_cases hbr : r.val = -1
        · rw [if_pos hbr] at h
          simp at h
        · rw [if_neg hbr] at h
          rw [hre] at h
          cases hgo : Mylib.writeGo rest (subSize (n + 1) r.val) (total + r.val) 0 with
          | none => rw [hgo] at h; simp at h
          | some p =>
            obtain ⟨x, reqs2⟩ := p
            rw [hgo] at h
            simp only [Option.some.injEq, Prod.mk.injEq] at h
            obtain ⟨h1, h2⟩ := h
            cases h1
            have hih := ih (subSize (n + 1) r.val) (total + r.val) 0 t er reqs2 hgo
            subst h2
            simp only [List.length_cons, List.take_succ_cons, List.map_cons, List.sum_cons]
            omega
      · rw [if_neg hre] at h
        simp at h

lemma writeGo_conforms_some :
    ∀ (rs : List Resp) (count : Nat) (total err0 : Int),
      count < 2 ^ 64 → count ≤ rs.length → conforms count rs = true →
      (Mylib.writeGo rs count total err0).isSome = true := by
  intro rs
  induction rs with
  | nil =>
    intro count total err0 _ hlen _
    have : count = 0 := by simpa using hlen
    subst this
    simp [Mylib.writeGo]
  | cons r rest ih =>
    intro count total err0 h64 hlen hconf
    cases count with
    | zero => simp [Mylib.writeGo]
    | succ n =>
      simp only [conforms, Bool.and_eq_true, Bool.or_eq_true, bne_iff_ne, ne_eq,
        decide_eq_true_eq] at hconf
      obtain ⟨hhead, htail⟩ := hconf
      by_cases hre : r.err = 0
      · have hrange : 1 ≤ r.val ∧ r.val ≤ ((min (n + 1) (MAX_MSG_LEN - 12) : Nat) : Int) := by
          rcases hhead with h | h
          · exact absurd hre h
          · exact h
        have hchunk : r.val.toNat ≤ n + 1 := by
          have := hrange.2
          have hm : (min (n + 1) (MAX_MSG_LEN - 12) : Nat) ≤ n + 1 := Nat.min_le_left _ _
          omega
        have hsub : subSize (n + 1) r.val = n + 1 - r.val.toNat :=
          subSize_no_wrap _ _ (by omega) hchunk h64
        have hbr : ¬(r.val = -1) := by omega
        rw [if_pos hre] at htail
        have hrec := ih (n + 1 - r.val.toNat) (total + r.val) 0 (by omega)
          (by simp only [List.length_cons] at hlen; omega) htail
        cases hgo : Mylib.writeGo rest (n + 1 - r.val.toNat) (total + r.val) 0 with
        | none => rw [hgo] at hrec; simp at hrec
        | some p =>
          simp [Mylib.writeGo, Mylib.writeHelper, hre, hbr, hsub, hgo]
      · simp [Mylib.writeGo, Mylib.writeHelper, hre]

/-- Claim C1: the shim's open returns -1 unchanged when the server fd is -1,
returns server_fd + 5000 when the server fd is non-negative, and hence, the
server fd being -1 or non-negative, every descriptor returned by open is -1
or server_fd + 5000 for a non-negative server_fd. -/
theorem c1_open_descriptor_bias (r : Resp) :
    (r.val = -1 → (Mylib.openCall r).1 = -1) ∧
    (0 ≤ r.val → (Mylib.openCall r).1 = r.val + 5000) ∧
    ((r.val = -1 ∨ 0 ≤ r.val) →
      (Mylib.openCall r).1 = -1 ∨
        ∃ s : Int, 0 ≤ s ∧ (Mylib.openCall r).1 = s + 5000) := by
  refine ⟨fun h => by simp [Mylib.openCall, h], fun h => ?_, ?_⟩
  · have hne : ¬(r.val = -1) := by omega
    simp [Mylib.openCall, hne, FD_OFFSET]
  · rintro (h | h)
    · exact Or.inl (by simp [Mylib.openCall, h])
    · refine Or.inr ⟨r.val, h, ?_⟩
      have hne : ¬(r.val = -1) := by omega
      simp [Mylib.openCall, hne, FD_OFFSET]

/-- Witness for C1 at the replies (-1, 2) and (3, 0). -/
theorem c1_open_descriptor_bias_witness :
    (Mylib.openCall ⟨-1, 2⟩).1 = -1 ∧ (Mylib.openCall ⟨3, 0⟩).1 = 3 + 5000 :=
  ⟨(c1_open_descriptor_bias ⟨-1, 2⟩).1 rfl,
   (c1_open_descriptor_bias ⟨3, 0⟩).2.1 (by decide)⟩

/-- Claim C2: on a remote read or write, when the replies to the sub-frames
are the error-free frames `ns` followed by an error-indicating frame `e`
(bytes -1, errno non-zero) that the loop reaches, the call aborts there,
returning -1 with errno taken from `e`, having sent exactly
`ns.length + 1` sub-frame requests. -/
theorem c2_chunk_abort_on_error (fd l err0 : Int) (hfd : FD_OFFSET ≤ fd)
    (ns : List Resp) (e : Resp) (rest : List Resp) (count : Nat)
    (hns : ∀ r ∈ ns, r.err = 0 ∧ 1 ≤ r.val)
    (he : e.val = -1 ∧ e.err ≠ 0)
    (hsum : (ns.map fun r => r.val.toNat).sum < count)
    (hcount : count < 2 ^ 64) :
    (∃ reqs, Mylib.read fd l count (ns ++ e :: rest) err0 = some (-1, e.err, reqs) ∧
      reqs.length = ns.length + 1) ∧
    (∃ reqs, Mylib.write fd l count (ns ++ e :: rest) err0 = some (-1, e.err, reqs) ∧
      reqs.length = ns.length + 1) := by
  have hnl : ¬(fd < FD_OFFSET) := not_lt.mpr hfd
  obtain ⟨reqs1, h1, hl1⟩ := readGo_abort e he.2 rest ns count 0 err0 hns hsum hcount
  obtain ⟨reqs2, h2, hl2⟩ := writeGo_abort e he.2 rest ns count 0 err0 hns hsum hcount
  exact ⟨⟨reqs1, by simp [Mylib.read, hnl, h1], hl1⟩,
         ⟨reqs2, by simp [Mylib.write, hnl, h2], hl2⟩⟩

/-- Witness for C2: one successful 1-byte frame, then an errno-5 frame. -/
theorem c2_chunk_abort_on_error_witness :
    ∃ reqs, Mylib.read 5000 0 10 [⟨1, 0⟩, ⟨-1, 5⟩] 0 = some (-1, 5, reqs) ∧
      reqs.length = 2 := by
  have h := (c2_chunk_abort_on_error 5000 0 0 (by decide) [⟨1, 0⟩] ⟨-1, 5⟩ [] 10
    (by decide) (by decide) (by decide) (by decide)).1
  simpa using h

/-- Claim C3: deserializing the serialization of a well-formed directory
tree (non-empty NUL-free names, child counts fitting a non-negative int)
yields the tree back exactly, consuming the whole byte sequence. -/
theorem c3_dirtree_roundtrip (t : dirtreenode) (hwf : wfTree t = true) :
    deserialize_dirtree (treeSize t) (serialize_dirtree t) = some (t, []) := by
  have h := deser_ser (treeSize t) t [] hwf le_rfl
  simpa using h

/-- Witness for C3 at a two-level tree with names "a", "b", "c". -/
theorem c3_dirtree_roundtrip_witness :
    wfTree (.mk [97] [.mk [98] [], .mk [99] []]) = true ∧
    deserialize_dirtree (treeSize (.mk [97] [.mk [98] [], .mk [99] []]))
        (serialize_dirtree (.mk [97] [.mk [98] [], .mk [99] []])) =
      some (.mk [97] [.mk [98] [], .mk [99] []], []) :=
  ⟨rfl, c3_dirtree_roundtrip _ rfl⟩

/-- Counterexample to claim C4 as stated: a remote lseek whose reply pairs
a non-zero errno with new offset 42 makes the shim return 42 — not the
failure sentinel -1 — while storing errno 9. -/
theorem c4_errno_sentinel_cex :
    (Mylib.lseek 5001 0 ⟨42, 9⟩ 0).2.1 ≠ 0 ∧
    (Mylib.lseek 5001 0 ⟨42, 9⟩ 0).1 ≠ -1 := by decide

/-- Claim C4, amended: the helpers behind read and write do force the
return to -1 whenever the received errno is non-zero, but every other
entry point returns the reply's primary value verbatim (open biases values
other than -1), so the caller sees the sentinel exactly when the server
supplied it in the reply. -/
theorem c4_errno_sentinel_amended (fd l e : Int) (r : Resp) (hfd : FD_OFFSET ≤ fd) :
    (r.err ≠ 0 → (Mylib.readHelper r).1 = -1 ∧ (Mylib.writeHelper r).1 = -1) ∧
    ((Mylib.close fd l r e).1 = r.val ∧ (Mylib.lseek fd l r e).1 = r.val ∧
      (Mylib.stat r).1 = r.val ∧ (Mylib.unlink r).1 = r.val ∧
      (Mylib.getdirentries fd l r e).1 = r.val) ∧
    (r.val = -1 →
      (Mylib.openCall r).1 = -1 ∧ (Mylib.close fd l r e).1 = -1 ∧
      (Mylib.lseek fd l r e).1 = -1 ∧ (Mylib.getdirentries fd l r e).1 = -1) := by
  have hnl : ¬(fd < FD_OFFSET) := not_lt.mpr hfd
  refine ⟨fun h => ?_, ?_, fun h => ?_⟩
  · simp [Mylib.readHelper, Mylib.writeHelper, h]
  · simp [Mylib.close, Mylib.lseek, Mylib.stat, Mylib.unlink, Mylib.getdirentries, hnl]
  · simp [Mylib.openCall, Mylib.close, Mylib.lseek, Mylib.getdirentries, hnl, h]

/-- Witness for the amended C4 at fd 5001 and reply (7, 9). -/
theorem c4_errno_sentinel_amended_witness :
    (Mylib.readHelper ⟨7, 9⟩).1 = -1 ∧ (Mylib.writeHelper ⟨7, 9⟩).1 = -1 ∧
    (Mylib.close 5001 0 ⟨7, 9⟩ 0).1 = 7 := by
  have h := c4_errno_sentinel_amended 5001 0 0 ⟨7, 9⟩ (by decide)
  exact ⟨(h.1 (by decide)).1, (h.1 (by decide)).2, h.2.1.1⟩

/-- Claim C5 (code bug): on success (errno 0) the server's getdirentries
reply is the 8-byte header followed by a data frame of exactly `bytes`
bytes, but on failure (underlying call -1, errno 9) the main loop still
sends a data frame — of `(size_t)(-1) = 2^64 - 1` bytes — where the claim
(and the client) expect none. -/
theorem c5_getdirentries_error_frame :
    Server.handle_getdirentries 100 0 = ⟨100, 0, 100⟩ ∧
    Server.handle_getdirentries (-1) 9 = ⟨-1, 9, 2 ^ 64 - 1⟩ ∧
    (2 ^ 64 - 1 : Nat) ≠ 0 := by decide

/-- Claim C6: a descriptor below FD_OFFSET is delegated to the local
implementation by read, write, close, lseek and getdirentries: the local
result is returned unchanged, errno is untouched, and no request is put on
the wire whatever the reply stream holds. -/
theorem c6_local_delegation (fd l e : Int) (hfd : fd < FD_OFFSET) :
    (∀ count rs, Mylib.read fd l count rs e = some (l, e, [])) ∧
    (∀ count rs, Mylib.write fd l count rs e = some (l, e, [])) ∧
    (∀ r, Mylib.close fd l r e = (l, e, 0)) ∧
    (∀ r, Mylib.lseek fd l r e = (l, e, 0)) ∧
    (∀ r, Mylib.getdirentries fd l r e = (l, e, 0)) := by
  refine ⟨fun count rs => ?_, fun count rs => ?_, fun r => ?_, fun r => ?_, fun r => ?_⟩ <;>
    simp [Mylib.read, Mylib.write, Mylib.close, Mylib.lseek, Mylib.getdirentries, hfd]

/-- Witness for C6 at fd 3 with local result 7. -/
theorem c6_local_delegation_witness :
    Mylib.read 3 7 4 [⟨1, 1⟩] 0 = some (7, 0, []) ∧
    Mylib.close 3 7 ⟨0, 1⟩ 0 = (7, 0, 0) := by
  have h := c6_local_delegation 3 7 0 (by decide)
  exact ⟨h.1 4 [⟨1, 1⟩], h.2.2.1 ⟨0, 1⟩⟩

/-- Claim C7: with every sub-frame fully successful, a remote write of
MAX_MSG_LEN - 12 = 4084 bytes goes out as one sub-frame and one of 4085
bytes as exactly two (4084 bytes, then 1). -/
theorem c7_write_chunk_boundary :
    MAX_MSG_LEN - 12 = 4084 ∧
    Mylib.write 5000 0 4084 [⟨4084, 0⟩] 0 = some (4084, 0, [4084]) ∧
    Mylib.write 5000 0 4085 [⟨4084, 0⟩, ⟨1, 0⟩] 0 = some (4085, 0, [4084, 1]) := by
  decide

/-- Claim C8: a remote write whose chunking loop runs to completion returns
the accumulated byte count — the sum of the consumed replies' byte fields —
except that a zero accumulated count (in particular a zero-byte write) is
turned into -1. -/
theorem c8_write_return_accumulated (fd l err0 t er : Int) (count : Nat)
    (rs : List Resp) (reqs : List Nat) (hfd : FD_OFFSET ≤ fd)
    (h : Mylib.writeGo rs count 0 err0 = some (.done t er, reqs)) :
    Mylib.write fd l count rs err0 = some (if t = 0 then -1 else t, er, reqs) ∧
    t = ((rs.take reqs.length).map fun r => r.val).sum := by
  have hnl : ¬(fd < FD_OFFSET) := not_lt.mpr hfd
  refine ⟨by simp [Mylib.write, hnl, h], ?_⟩
  simpa using writeGo_done_sum rs count 0 err0 t er reqs h

/-- Witness for C8: a 3-byte write returning 3, and a 0-byte write
returning -1. -/
theorem c8_write_return_accumulated_witness :
    Mylib.write 5000 2 3 [⟨3, 0⟩] 0 = some (3, 0, [3]) ∧
    Mylib.write 5000 2 0 [] 0 = some (-1, 0, []) := by
  have h3 := c8_write_return_accumulated 5000 2 0 3 0 3 [⟨3, 0⟩] [3] (by decide) (by decide)
  have h0 := c8_write_return_accumulated 5000 2 0 0 0 0 [] [] (by decide) (by decide)
  exact ⟨by simpa using h3.1, by simpa using h0.1⟩

/-- Counterexample to claim C9 as stated: six replies, each with errno 0 and
a positive byte count, satisfy the claim's precondition, yet a write of
count 5 consumes all six without terminating — the first reply (10 bytes,
above the remaining 5) makes the size_t subtraction wrap, increasing the
remaining count to 2^64 - 5 instead of decreasing it. -/
theorem c9_write_termination_cex :
    (∀ r ∈ ([⟨10, 0⟩, ⟨1, 0⟩, ⟨1, 0⟩, ⟨1, 0⟩, ⟨1, 0⟩, ⟨1, 0⟩] : List Resp),
      r.err ≠ 0 ∨ 1 ≤ r.val) ∧
    Mylib.writeGo [⟨10, 0⟩, ⟨1, 0⟩, ⟨1, 0⟩, ⟨1, 0⟩, ⟨1, 0⟩, ⟨1, 0⟩] 5 0 0 = none ∧
    subSize 5 10 = 2 ^ 64 - 5 ∧ 5 < 2 ^ 64 - 5 := by
  decide

/-- Claim C9, amended: provided every successful sub-frame reply also stays
within the requested chunk (at most min(remaining, 4084) bytes), each
iteration of the remote write loop either returns -1 on a non-zero errno or
strictly decreases the remaining count; a zero-byte zero-errno reply leaves
the remaining count unchanged; and on a conforming reply stream at least as
long as the count the loop terminates. -/
theorem c9_write_termination_amended (r : Resp) (rest rs : List Resp)
    (count : Nat) (total err0 : Int) (hc : 0 < count) (hc64 : count < 2 ^ 64) :
    (r.err ≠ 0 → Mylib.writeGo (r :: rest) count total err0 =
      some (.abort r.err, [min count (MAX_MSG_LEN - 12)])) ∧
    (r.err = 0 → 1 ≤ r.val → r.val.toNat ≤ min count (MAX_MSG_LEN - 12) →
      Mylib.writeGo (r :: rest) count total err0 =
        (Mylib.writeGo rest (count - r.val.toNat) (total + r.val) 0).map
          (fun p => (p.1, min count (MAX_MSG_LEN - 12) :: p.2)) ∧
      count - r.val.toNat < count) ∧
    (r.err = 0 → r.val = 0 →
      Mylib.writeGo (r :: rest) count total err0 =
        (Mylib.writeGo rest count total 0).map
          (fun p => (p.1, min count (MAX_MSG_LEN - 12) :: p.2))) ∧
    (count ≤ rs.length → conforms count rs = true →
      (Mylib.writeGo rs count total err0).isSome = true) := by
  obtain ⟨n, rfl⟩ : ∃ n, count = n + 1 := ⟨count - 1, by omega⟩
  refine ⟨fun h => ?_, fun hre h1 hch => ?_, fun hre h0 => ?_, fun hlen hconf => ?_⟩
  · simp [Mylib.writeGo, Mylib.writeHelper, h]
  · have hsub : subSize (n + 1) r.val = n + 1 - r.val.toNat :=
      subSize_no_wrap _ _ (by omega) (le_trans hch (Nat.min_le_left _ _)) hc64
    have hbr : ¬(r.val = -1) := by omega
    refine ⟨?_, by omega⟩
    cases hgo : Mylib.writeGo rest (n + 1 - r.val.toNat) (total + r.val) 0 with
    | none => simp [Mylib.writeGo, Mylib.writeHelper, hre, hbr, hsub, hgo]
    | some p => simp [Mylib.writeGo, Mylib.writeHelper, hre, hbr, hsub, hgo]
  · have hsub : subSize (n + 1) 0 = n + 1 := by
      unfold subSize; omega
    have hbr : ¬(r.val = -1) := by omega
    cases hgo : Mylib.writeGo rest (n + 1) total 0 with
    | none => simp [Mylib.writeGo, Mylib.writeHelper, hre, hbr, hsub, h0, hgo]
    | some p => simp [Mylib.writeGo, Mylib.writeHelper, hre, hbr, hsub, h0, hgo]
  · exact writeGo_conforms_some rs (n + 1) total err0 hc64 hlen hconf

/-- Witness for the amended C9: an errno-7 frame aborts a 1-byte write, and
a conforming single-frame stream lets it terminate. -/
theorem c9_write_termination_amended_witness :
    Mylib.writeGo [⟨2, 7⟩] 1 0 0 = some (.abort 7, [min 1 (MAX_MSG_LEN - 12)]) ∧
    (Mylib.writeGo [⟨1, 0⟩] 1 0 0).isSome = true := by
  have h := c9_write_termination_amended ⟨2, 7⟩ [] [⟨1, 0⟩] 1 0 0 (by decide) (by decide)
  exact ⟨h.1 (by decide), h.2.2.2 (by decide) (by decide)⟩

/-- Claim C10: a remote read with count 0 never enters the chunking loop:
it returns 0, leaves errno as it was, and sends nothing. -/
theorem c10_read_zero_count (fd l err0 : Int) (rs : List Resp)
    (hfd : FD_OFFSET ≤ fd) :
    Mylib.read fd l 0 rs err0 = some (0, err0, []) := by
  have hnl : ¬(fd < FD_OFFSET) := not_lt.mpr hfd
  cases rs with
  | nil => simp [Mylib.read, Mylib.readGo, hnl]
  | cons a as => simp [Mylib.read, Mylib.readGo, hnl]

/-- Witness for C10 at fd 5000 with a non-empty reply stream. -/
theorem c10_read_zero_count_witness :
    Mylib.read 5000 3 0 [⟨9, 9⟩] 4 = some (0, 4, []) :=
  c10_read_zero_count 5000 3 4 [⟨9, 9⟩] (by decide)
